import Mathlib

/-!
# Verification of the mortgage amortization engine

Shallow embedding of the amortization engine of `mortgage_calc.py` over exact
rational arithmetic (the spec's "ideal, non-rounded arithmetic").  Money values
and rates are `ℚ`; month counters are `ℕ`.

The embedded definitions mirror the source:

* `monthly_pi` — the base P&I payment (source lines 50-53);
* `scheduleLoop` — the extras while-loop (source lines 70-98), written with
  explicit fuel: the Python guard is `balance > 0 and month < num_payments * 2`
  and `month` increases by one each iteration, so fuel `num_payments * 2`
  starting from `month = 0` is exactly the source's bound;
* `standardLoop` — the no-extras for-loop used for the table display
  (source lines 158-173);
* `mortgageCalc` — the whole calculation section (source lines 46-109),
  producing every derived quantity of the script;
* `standardScheduleCalc` — the standard schedule materialisation
  (source lines 157-174).
-/

/- Batteries marks the arithmetic on `Rat` irreducible, which blocks the
evaluation of concrete schedules inside `decide`; restore default
reducibility (this affects elaboration only, not the kernel). -/
set_option allowUnsafeReducibility true in
attribute [semireducible] Rat.add Rat.mul Rat.inv Rat.sub Rat.ofScientific

/-- One row of the amortization schedule, mirroring the dictionary appended to
`schedule` in the source (Month, Total Payment, Principal, Interest, Tax,
Insurance, Extra, Balance). -/
structure PaymentRecord where
  month : ℕ
  totalPayment : ℚ
  principalPaid : ℚ
  interest : ℚ
  tax : ℚ
  insurance : ℚ
  extra : ℚ
  balance : ℚ
  deriving DecidableEq, Inhabited

/-- Base monthly principal-and-interest payment (source lines 50-53): the
annuity formula when `monthly_rate > 0`, else straight-line `principal / n`.
Lean's division is total, so at `numPayments = 0` this returns `0` where the
source raises ZeroDivisionError (denominator `(1+r)**0 - 1 == 0` on line 51,
or `principal / 0` on line 53); that exception path is modelled by the
`numPayments = 0` guard of `mortgageCalcRun` below. -/
def monthly_pi (principal monthlyRate : ℚ) (numPayments : ℕ) : ℚ :=
  if 0 < monthlyRate then
    principal * (monthlyRate * (1 + monthlyRate) ^ numPayments) /
      ((1 + monthlyRate) ^ numPayments - 1)
  else
    principal / (numPayments : ℚ)

/-- The extras while-loop of the source (lines 70-98).  State: remaining fuel
(`num_payments * 2 - month` at entry), current `balance`, the remaining
one-time extra (the source zeroes the variable once applied), and the current
`month` counter.  Each iteration emits one `PaymentRecord`; the trailing
`if balance <= 0: break` of the source coincides with the guard test of the
next iteration because the updated balance is clamped at `0`. -/
def scheduleLoop (monthlyRate basePayment extraMonthly monthlyTax monthlyInsurance : ℚ)
    (oneTimeMonth : ℕ) : ℕ → ℚ → ℚ → ℕ → List PaymentRecord
  | 0, _, _, _ => []
  | fuel + 1, balance, oneTimeLeft, month =>
    if 0 < balance then
      let month' := month + 1
      let interest := balance * monthlyRate
      let extraThisMonth :=
        if 0 < oneTimeLeft ∧ month' = oneTimeMonth then extraMonthly + oneTimeLeft
        else extraMonthly
      let oneTimeLeft' :=
        if 0 < oneTimeLeft ∧ month' = oneTimeMonth then (0 : ℚ) else oneTimeLeft
      let principalPayment := basePayment - interest + extraThisMonth
      let balance' := max 0 (balance - principalPayment)
      { month := month'
        totalPayment := basePayment + monthlyTax + monthlyInsurance + extraThisMonth
        principalPaid := principalPayment
        interest := interest
        tax := monthlyTax
        insurance := monthlyInsurance
        extra := extraThisMonth
        balance := balance' } ::
        scheduleLoop monthlyRate basePayment extraMonthly monthlyTax monthlyInsurance
          oneTimeMonth fuel balance' oneTimeLeft' month'
    else []

/-- The standard (no extras) schedule for-loop of the source (lines 158-173):
`for month in range(1, num_payments + 1)`, no early exit, balance clamped at
zero.  Arguments: remaining iteration count, current balance, current month. -/
def standardLoop (monthlyRate basePayment totalMonthly monthlyTax monthlyInsurance : ℚ) :
    ℕ → ℚ → ℕ → List PaymentRecord
  | 0, _, _ => []
  | cnt + 1, balance, month =>
    let month' := month + 1
    let interest := balance * monthlyRate
    let principalPayment := basePayment - interest
    let balance' := max 0 (balance - principalPayment)
    { month := month'
      totalPayment := totalMonthly
      principalPaid := principalPayment
      interest := interest
      tax := monthlyTax
      insurance := monthlyInsurance
      extra := 0
      balance := balance' } ::
      standardLoop monthlyRate basePayment totalMonthly monthlyTax monthlyInsurance
        cnt balance' month'

/-- All quantities derived by the calculation section of the source
(lines 46-109).  `extrasSchedule` and `actual_payments` mirror the source's
`df_amort` / `actual_payments`, which exist only when an extra payment is
present (`df_amort = None` otherwise). -/
structure MortgageResult where
  principal : ℚ
  monthly_rate : ℚ
  num_payments : ℕ
  monthly_pi : ℚ
  monthly_payment : ℚ
  total_paid_standard : ℚ
  total_interest_standard : ℚ
  extrasSchedule : Option (List PaymentRecord)
  actual_payments : Option ℕ
  total_paid_extra : ℚ
  total_interest_extra : ℚ
  years_saved : ℚ
  deriving DecidableEq, Inhabited

/-- The calculation section of the source (lines 46-109), as a pure function of
the sidebar inputs, covering the runs on which the source raises no exception.
The pandas aggregations of lines 101-103 (`len(df_amort)`, column sums) are
modelled as list length and list sums; on the runs where the source instead
raises — a zero term (line 51/53) or an empty extras schedule, whose
`df_amort["Total Payment"]` raises KeyError at line 102 — the returned record
is an artifact of totalisation and `mortgageCalcRun` below, which wraps this
function in those two guards, is the faithful model of the run. -/
def mortgageCalc (loan_amount down_payment_pct interest_rate : ℚ) (loan_term_years : ℕ)
    (annual_property_tax annual_home_insurance extra_monthly extra_one_time : ℚ)
    (extra_one_time_month : ℕ) : MortgageResult :=
  let down_payment := loan_amount * (down_payment_pct / 100)
  let principal := loan_amount - down_payment
  let monthly_tax := annual_property_tax / 12
  let monthly_insurance := annual_home_insurance / 12
  let monthly_rate := interest_rate / 100 / 12
  let num_payments := loan_term_years * 12
  let mpi := monthly_pi principal monthly_rate num_payments
  let monthly_payment := mpi + monthly_tax + monthly_insurance
  let total_paid_standard := monthly_payment * (num_payments : ℚ)
  let total_interest_standard := mpi * (num_payments : ℚ) - principal
  if 0 < extra_monthly ∨ 0 < extra_one_time then
    let s := scheduleLoop monthly_rate mpi extra_monthly monthly_tax monthly_insurance
      extra_one_time_month (num_payments * 2) principal extra_one_time 0
    { principal := principal
      monthly_rate := monthly_rate
      num_payments := num_payments
      monthly_pi := mpi
      monthly_payment := monthly_payment
      total_paid_standard := total_paid_standard
      total_interest_standard := total_interest_standard
      extrasSchedule := some s
      actual_payments := some s.length
      total_paid_extra := (s.map PaymentRecord.totalPayment).sum
      total_interest_extra := (s.map PaymentRecord.interest).sum
      years_saved := ((num_payments : ℚ) - (s.length : ℚ)) / 12 }
  else
    { principal := principal
      monthly_rate := monthly_rate
      num_payments := num_payments
      monthly_pi := mpi
      monthly_payment := monthly_payment
      total_paid_standard := total_paid_standard
      total_interest_standard := total_interest_standard
      extrasSchedule := none
      actual_payments := none
      total_paid_extra := total_paid_standard
      total_interest_extra := total_interest_standard
      years_saved := 0 }

/-- The standard schedule materialised by the table-display branch of the
source (lines 157-174), reached when no extra payment is present. -/
def standardScheduleCalc (loan_amount down_payment_pct interest_rate : ℚ)
    (loan_term_years : ℕ) (annual_property_tax annual_home_insurance : ℚ) :
    List PaymentRecord :=
  let down_payment := loan_amount * (down_payment_pct / 100)
  let principal := loan_amount - down_payment
  let monthly_tax := annual_property_tax / 12
  let monthly_insurance := annual_home_insurance / 12
  let monthly_rate := interest_rate / 100 / 12
  let num_payments := loan_term_years * 12
  let mpi := monthly_pi principal monthly_rate num_payments
  let monthly_payment := mpi + monthly_tax + monthly_insurance
  standardLoop monthly_rate mpi monthly_payment monthly_tax monthly_insurance
    num_payments principal 0

/-- The extras schedule built by the calculation section when an extra payment
is present (the `schedule` list of source lines 64-99), with all derived
quantities spelled out in terms of the raw inputs. -/
def extrasScheduleCalc (loan_amount down_payment_pct interest_rate : ℚ)
    (loan_term_years : ℕ)
    (annual_property_tax annual_home_insurance extra_monthly extra_one_time : ℚ)
    (extra_one_time_month : ℕ) : List PaymentRecord :=
  scheduleLoop (interest_rate / 100 / 12)
    (monthly_pi (loan_amount - loan_amount * (down_payment_pct / 100))
      (interest_rate / 100 / 12) (loan_term_years * 12))
    extra_monthly (annual_property_tax / 12) (annual_home_insurance / 12)
    extra_one_time_month (loan_term_years * 12 * 2)
    (loan_amount - loan_amount * (down_payment_pct / 100)) extra_one_time 0

/-- The calculation section as actually executed, including its two exception
paths, which the total functions above collapse; `none` is a raised exception,
ending the run with no result.
* `num_payments = 0` (a zero term): line 51 divides by `(1+r)**0 - 1 == 0`
  when the monthly rate is positive, and line 53 computes `principal / 0`
  otherwise — ZeroDivisionError either way, before anything is produced.
* an extra payment is present but the emitted schedule is empty: line 100
  builds a DataFrame with no columns, `len(df_amort)` at line 101 still
  evaluates to 0, but `df_amort["Total Payment"]` at line 102 raises KeyError,
  so lines 102-104 (`total_paid_extra`, `total_interest_extra`,
  `years_saved`) are never computed. -/
def mortgageCalcRun (loan_amount down_payment_pct interest_rate : ℚ)
    (loan_term_years : ℕ)
    (annual_property_tax annual_home_insurance extra_monthly extra_one_time : ℚ)
    (extra_one_time_month : ℕ) : Option MortgageResult :=
  if loan_term_years * 12 = 0 then none
  else if (0 < extra_monthly ∨ 0 < extra_one_time)
      ∧ extrasScheduleCalc loan_amount down_payment_pct interest_rate loan_term_years
          annual_property_tax annual_home_insurance extra_monthly extra_one_time
          extra_one_time_month = [] then none
  else some (mortgageCalc loan_amount down_payment_pct interest_rate loan_term_years
    annual_property_tax annual_home_insurance extra_monthly extra_one_time
    extra_one_time_month)

/-- The balance column is the recurrence `balance_t = max 0 (balance_(t-1) -
principalPaid_t)` anchored at the given starting balance. -/
def balChain : ℚ → List PaymentRecord → Prop
  | _, [] => True
  | prev, rec :: rest => rec.balance = max 0 (prev - rec.principalPaid) ∧ balChain rec.balance rest

/-- The balance column is non-increasing, starting no higher than the given
starting balance. -/
def balLE : ℚ → List PaymentRecord → Prop
  | _, [] => True
  | prev, rec :: rest => rec.balance ≤ prev ∧ balLE rec.balance rest

/-- The unclamped one-month balance update of the amortizing recurrence:
`b ↦ (1 + r) * b - payment` (interest accrues, one payment is made). -/
def stepIdeal (r pay b : ℚ) : ℚ := (1 + r) * b - pay

/-- The fields of a `PaymentRecord` that belong to the amortization proper
(everything except the tax/insurance pass-through and the total payment). -/
def stripTI (rec : PaymentRecord) : ℕ × ℚ × ℚ × ℚ × ℚ :=
  (rec.month, rec.principalPaid, rec.interest, rec.extra, rec.balance)

section LoopStructure

variable (r pay eM tax ins : ℚ) (M : ℕ)

theorem scheduleLoop_balChain : ∀ fuel (b ot : ℚ) (m : ℕ),
    balChain b (scheduleLoop r pay eM tax ins M fuel b ot m) := by
  intro fuel
  induction fuel with
  | zero => intro b ot m; simp [scheduleLoop, balChain]
  | succ fuel ih =>
    intro b ot m
    rw [scheduleLoop]
    split
    · exact ⟨rfl, ih _ _ _⟩
    · simp [balChain]

theorem scheduleLoop_principalPaid : ∀ fuel (b ot : ℚ) (m : ℕ),
    ∀ rec ∈ scheduleLoop r pay eM tax ins M fuel b ot m,
      rec.principalPaid = pay - rec.interest + rec.extra := by
  intro fuel
  induction fuel with
  | zero => intro b ot m; simp [scheduleLoop]
  | succ fuel ih =>
    intro b ot m rec hrec
    rw [scheduleLoop] at hrec
    split at hrec
    · rcases List.mem_cons.mp hrec with h | h
      · subst h; rfl
      · exact ih _ _ _ rec h
    · simp at hrec

theorem scheduleLoop_month_gt : ∀ fuel (b ot : ℚ) (m : ℕ),
    ∀ rec ∈ scheduleLoop r pay eM tax ins M fuel b ot m, m < rec.month := by
  intro fuel
  induction fuel with
  | zero => intro b ot m; simp [scheduleLoop]
  | succ fuel ih =>
    intro b ot m rec hrec
    rw [scheduleLoop] at hrec
    split at hrec
    · rcases List.mem_cons.mp hrec with h | h
      · subst h; exact Nat.lt_succ_self m
      · exact Nat.lt_of_succ_le (Nat.le_of_lt (ih _ _ _ rec h))
    · simp at hrec

theorem scheduleLoop_balance_nonneg : ∀ fuel (b ot : ℚ) (m : ℕ),
    ∀ rec ∈ scheduleLoop r pay eM tax ins M fuel b ot m, 0 ≤ rec.balance := by
  intro fuel
  induction fuel with
  | zero => intro b ot m; simp [scheduleLoop]
  | succ fuel ih =>
    intro b ot m rec hrec
    rw [scheduleLoop] at hrec
    split at hrec
    · rcases List.mem_cons.mp hrec with h | h
      · subst h; exact le_max_left _ _
      · exact ih _ _ _ rec h
    · simp at hrec

theorem scheduleLoop_nil_of_nonpos (fuel : ℕ) (b ot : ℚ) (m : ℕ) (hb : ¬ 0 < b) :
    scheduleLoop r pay eM tax ins M fuel b ot m = [] := by
  cases fuel with
  | zero => rfl
  | succ fuel => rw [scheduleLoop]; exact if_neg hb

theorem scheduleLoop_ne_nil (fuel : ℕ) (b ot : ℚ) (m : ℕ) (hb : 0 < b) :
    scheduleLoop r pay eM tax ins M (fuel + 1) b ot m ≠ [] := by
  rw [scheduleLoop, if_pos hb]
  exact List.cons_ne_nil _ _

theorem standardLoop_length (mp : ℚ) : ∀ cnt (b : ℚ) (m : ℕ),
    (standardLoop r pay mp tax ins cnt b m).length = cnt := by
  intro cnt
  induction cnt with
  | zero => intro b m; rfl
  | succ cnt ih => intro b m; rw [standardLoop]; simp [ih]

theorem standardLoop_totalPayment (mp : ℚ) : ∀ cnt (b : ℚ) (m : ℕ),
    ∀ rec ∈ standardLoop r pay mp tax ins cnt b m, rec.totalPayment = mp := by
  intro cnt
  induction cnt with
  | zero => intro b m; simp [standardLoop]
  | succ cnt ih =>
    intro b m rec hrec
    rw [standardLoop] at hrec
    rcases List.mem_cons.mp hrec with h | h
    · subst h; rfl
    · exact ih _ _ rec h

end LoopStructure

section StepIdeal

variable {r pay : ℚ}

theorem stepIdeal_mono (hr : 0 ≤ r) {a b : ℚ} (hab : a ≤ b) :
    stepIdeal r pay a ≤ stepIdeal r pay b := by
  unfold stepIdeal
  have h1 : (0:ℚ) < 1 + r := by linarith
  nlinarith

theorem stepIdeal_iterate_mono (hr : 0 ≤ r) : ∀ (k : ℕ) {a b : ℚ}, a ≤ b →
    (stepIdeal r pay)^[k] a ≤ (stepIdeal r pay)^[k] b := by
  intro k
  induction k with
  | zero => intro a b hab; simpa using hab
  | succ k ih =>
    intro a b hab
    rw [Function.iterate_succ_apply, Function.iterate_succ_apply]
    exact ih (stepIdeal_mono hr hab)

theorem stepIdeal_iterate_nonpos (hr : 0 ≤ r) (hpay : 0 ≤ pay) :
    ∀ (k : ℕ) {c : ℚ}, c ≤ 0 → (stepIdeal r pay)^[k] c ≤ 0 := by
  intro k
  induction k with
  | zero => intro c hc; simpa using hc
  | succ k ih =>
    intro c hc
    rw [Function.iterate_succ_apply]
    refine ih ?_
    unfold stepIdeal
    nlinarith

theorem stepIdeal_iterate_neg (hr : 0 ≤ r) (hpay : 0 ≤ pay) :
    ∀ (k : ℕ) {c : ℚ}, c < 0 → (stepIdeal r pay)^[k] c < 0 := by
  intro k
  induction k with
  | zero => intro c hc; simpa using hc
  | succ k ih =>
    intro c hc
    rw [Function.iterate_succ_apply]
    refine ih ?_
    unfold stepIdeal
    nlinarith

theorem stepIdeal_iterate_closed (hr : r ≠ 0) (P : ℚ) : ∀ (k : ℕ),
    (stepIdeal r pay)^[k] P = (P - pay / r) * (1 + r) ^ k + pay / r := by
  intro k
  induction k with
  | zero => simp
  | succ k ih =>
    rw [Function.iterate_succ_apply', ih]
    unfold stepIdeal
    field_simp
    ring

theorem stepIdeal_iterate_zero_rate (P : ℚ) : ∀ (k : ℕ),
    (stepIdeal 0 pay)^[k] P = P - k * pay := by
  intro k
  induction k with
  | zero => simp
  | succ k ih =>
    rw [Function.iterate_succ_apply', ih]
    unfold stepIdeal
    push_cast
    ring

/-- The annuity identity: starting from `principal` and repeatedly applying the
unclamped update with the base payment of `monthly_pi`, the balance is exactly
zero after `numPayments` periods. -/
theorem stepIdeal_monthly_pi_iterate (P r : ℚ) (n : ℕ) (hr : 0 ≤ r) (hn : n ≠ 0) :
    (stepIdeal r (monthly_pi P r n))^[n] P = 0 := by
  rcases eq_or_lt_of_le hr with hr0 | hrpos
  · rw [← hr0, stepIdeal_iterate_zero_rate]
    rw [monthly_pi, if_neg (lt_irrefl 0)]
    have hn' : (n : ℚ) ≠ 0 := Nat.cast_ne_zero.mpr hn
    field_simp
  · have hx : (1:ℚ) < (1 + r) ^ n := one_lt_pow₀ (by linarith) hn
    have hx1 : (1 + r) ^ n - 1 ≠ 0 := by linarith
    have hrne : r ≠ 0 := ne_of_gt hrpos
    rw [stepIdeal_iterate_closed hrne]
    rw [monthly_pi, if_pos hrpos]
    field_simp
    ring

theorem monthly_pi_nonneg {P r : ℚ} (n : ℕ) (hP : 0 ≤ P) (hr : 0 ≤ r) (hn : n ≠ 0) :
    0 ≤ monthly_pi P r n := by
  rcases eq_or_lt_of_le hr with hr0 | hrpos
  · rw [monthly_pi, ← hr0, if_neg (lt_irrefl 0)]
    positivity
  · have hx : (1:ℚ) < (1 + r) ^ n := one_lt_pow₀ (by linarith) hn
    rw [monthly_pi, if_pos hrpos]
    have hnum : 0 ≤ P * (r * (1 + r) ^ n) := by positivity
    have hden : (0:ℚ) < (1 + r) ^ n - 1 := by linarith
    exact div_nonneg hnum (le_of_lt hden)

/-- The base payment covers at least the first month's interest. -/
theorem monthly_pi_ge {P r : ℚ} (n : ℕ) (hP : 0 ≤ P) (hr : 0 ≤ r) (hn : n ≠ 0) :
    P * r ≤ monthly_pi P r n := by
  rcases eq_or_lt_of_le hr with hr0 | hrpos
  · rw [← hr0, mul_zero]
    exact monthly_pi_nonneg n hP (le_refl 0) hn
  · have hx : (1:ℚ) < (1 + r) ^ n := one_lt_pow₀ (by linarith) hn
    rw [monthly_pi, if_pos hrpos]
    rw [le_div_iff₀ (by linarith)]
    nlinarith

end StepIdeal

section Monotone

variable {r pay eM tax ins : ℚ} {M : ℕ}

theorem scheduleLoop_balLE (hr : 0 ≤ r) (heM : 0 ≤ eM) :
    ∀ fuel (b ot : ℚ) (m : ℕ), 0 ≤ b → 0 ≤ ot → b * r ≤ pay →
      balLE b (scheduleLoop r pay eM tax ins M fuel b ot m) := by
  intro fuel
  induction fuel with
  | zero => intro b ot m _ _ _; simp [scheduleLoop, balLE]
  | succ fuel ih =>
    intro b ot m hb hot hbr
    rw [scheduleLoop]
    split
    · have hext : (0:ℚ) ≤ if 0 < ot ∧ m + 1 = M then eM + ot else eM := by
        split
        · linarith
        · exact heM
      set e := if 0 < ot ∧ m + 1 = M then eM + ot else eM with he
      have hpp : 0 ≤ pay - b * r + e := by linarith
      have hble : max 0 (b - (pay - b * r + e)) ≤ b := by
        apply max_le hb
        linarith
      refine ⟨hble, ?_⟩
      apply ih
      · exact le_max_left _ _
      · split
        · exact le_refl 0
        · exact hot
      · calc max 0 (b - (pay - b * r + e)) * r ≤ b * r := by
              apply mul_le_mul_of_nonneg_right hble hr
          _ ≤ pay := hbr
    · simp [balLE]

theorem standardLoop_balLE (hr : 0 ≤ r) (mp : ℚ) :
    ∀ cnt (b : ℚ) (m : ℕ), 0 ≤ b → b * r ≤ pay →
      balLE b (standardLoop r pay mp tax ins cnt b m) := by
  intro cnt
  induction cnt with
  | zero => intro b m _ _; simp [standardLoop, balLE]
  | succ cnt ih =>
    intro b m hb hbr
    rw [standardLoop]
    have hble : max 0 (b - (pay - b * r)) ≤ b := by
      apply max_le hb
      linarith
    refine ⟨hble, ?_⟩
    apply ih
    · exact le_max_left _ _
    · calc max 0 (b - (pay - b * r)) * r ≤ b * r := by
            apply mul_le_mul_of_nonneg_right hble hr
        _ ≤ pay := hbr

theorem balLE_chain : ∀ (s : List PaymentRecord) (prev : ℚ), balLE prev s →
    List.Chain' (fun a b => b.balance ≤ a.balance) s := by
  intro s
  induction s with
  | nil => intro prev _; exact List.chain'_nil
  | cons rec rest ih =>
    intro prev h
    rcases h with ⟨_, hrest⟩
    rw [List.chain'_cons']
    refine ⟨?_, ih rec.balance hrest⟩
    intro y hy
    cases rest with
    | nil => simp at hy
    | cons c t =>
      simp at hy
      subst hy
      exact hrest.1

/-- If `k` unclamped steps from `b` reach a non-positive balance, the clamped
loop with any non-negative extras pays off within `k` emitted records. -/
theorem scheduleLoop_length_le (hr : 0 ≤ r) (hpay : 0 ≤ pay) (heM : 0 ≤ eM) :
    ∀ (k : ℕ) (fuel : ℕ) (b ot : ℚ) (m : ℕ), 0 ≤ ot →
      (stepIdeal r pay)^[k] b ≤ 0 →
      (scheduleLoop r pay eM tax ins M fuel b ot m).length ≤ k := by
  intro k
  induction k with
  | zero =>
    intro fuel b ot m _ hk
    simp only [Function.iterate_zero, id] at hk
    rw [scheduleLoop_nil_of_nonpos r pay eM tax ins M fuel b ot m (not_lt.mpr hk)]
    simp
  | succ k ih =>
    intro fuel b ot m hot hk
    cases fuel with
    | zero => simp [scheduleLoop]
    | succ fuel =>
      rw [scheduleLoop]
      split
      · simp only [List.length_cons, Nat.succ_le_succ_iff]
        set e := if 0 < ot ∧ m + 1 = M then eM + ot else eM with he
        have hext : (0:ℚ) ≤ e := by
          rw [he]
          split
          · linarith
          · exact heM
        have hot' : (0:ℚ) ≤ if 0 < ot ∧ m + 1 = M then (0 : ℚ) else ot := by
          split
          · exact le_refl 0
          · exact hot
        apply ih fuel _ _ _ hot'
        rcases le_or_lt (b - (pay - b * r + e)) 0 with hc | hc
        · rw [max_eq_left hc]
          exact stepIdeal_iterate_nonpos hr hpay k (le_refl 0)
        · rw [max_eq_right (le_of_lt hc)]
          have h1 : b - (pay - b * r + e) ≤ stepIdeal r pay b := by
            unfold stepIdeal
            linarith
          calc (stepIdeal r pay)^[k] (b - (pay - b * r + e))
              ≤ (stepIdeal r pay)^[k] (stepIdeal r pay b) :=
                stepIdeal_iterate_mono hr k h1
            _ = (stepIdeal r pay)^[k + 1] b := (Function.iterate_succ_apply _ _ _).symm
            _ ≤ 0 := hk
      · simp

end Monotone

section StandardEval

variable {r pay : ℚ}

/-- If the unclamped trajectory from `P` is still zero after `n` steps, it
never went negative on the way: once negative it stays negative. -/
theorem stepIdeal_iterate_nonneg (hr : 0 ≤ r) (hpay : 0 ≤ pay) {P : ℚ} {n : ℕ}
    (hzero : (stepIdeal r pay)^[n] P = 0) :
    ∀ k, k ≤ n → 0 ≤ (stepIdeal r pay)^[k] P := by
  intro k hk
  by_contra hneg
  push_neg at hneg
  have h1 : (stepIdeal r pay)^[n - k] ((stepIdeal r pay)^[k] P) < 0 :=
    stepIdeal_iterate_neg hr hpay _ hneg
  rw [← Function.iterate_add_apply, Nat.sub_add_cancel hk, hzero] at h1
  exact lt_irrefl 0 h1

theorem standardLoop_interest_sum (mp tax ins : ℚ) :
    ∀ (cnt : ℕ) (b : ℚ) (m : ℕ), (∀ k, k ≤ cnt → 0 ≤ (stepIdeal r pay)^[k] b) →
      ((standardLoop r pay mp tax ins cnt b m).map PaymentRecord.interest).sum
        = cnt * pay - b + (stepIdeal r pay)^[cnt] b := by
  intro cnt
  induction cnt with
  | zero => intro b m _; simp [standardLoop]
  | succ cnt ih =>
    intro b m hpos
    have h1 : 0 ≤ stepIdeal r pay b := by
      have := hpos 1 (Nat.one_le_iff_ne_zero.mpr (Nat.succ_ne_zero cnt))
      simpa using this
    have hbal : max 0 (b - (pay - b * r)) = stepIdeal r pay b := by
      rw [max_eq_right]
      · unfold stepIdeal; ring
      · unfold stepIdeal at h1; linarith
    rw [standardLoop]
    simp only [List.map_cons, List.sum_cons]
    rw [hbal, ih (stepIdeal r pay b) (m + 1) ?_]
    · rw [← Function.iterate_succ_apply]
      unfold stepIdeal
      push_cast
      ring
    · intro k hk
      rw [← Function.iterate_succ_apply]
      exact hpos (k + 1) (Nat.succ_le_succ hk)

theorem standardLoop_getLast_balance (mp tax ins : ℚ) :
    ∀ (cnt : ℕ) (b : ℚ) (m : ℕ), (∀ k, k ≤ cnt → 0 ≤ (stepIdeal r pay)^[k] b) →
      ∀ rec, (standardLoop r pay mp tax ins cnt b m).getLast? = some rec →
        rec.balance = (stepIdeal r pay)^[cnt] b := by
  intro cnt
  induction cnt with
  | zero => intro b m _ rec h; simp [standardLoop] at h
  | succ cnt ih =>
    intro b m hpos rec hrec
    have h1 : 0 ≤ stepIdeal r pay b := by
      have := hpos 1 (Nat.one_le_iff_ne_zero.mpr (Nat.succ_ne_zero cnt))
      simpa using this
    have hbal : max 0 (b - (pay - b * r)) = stepIdeal r pay b := by
      rw [max_eq_right]
      · unfold stepIdeal; ring
      · unfold stepIdeal at h1; linarith
    rw [standardLoop] at hrec
    cases cnt with
    | zero =>
      simp only [standardLoop, List.getLast?_singleton, Option.some_inj] at hrec
      rw [← hrec]
      simp only [Function.iterate_one]
      exact hbal
    | succ cnt =>
      have hne : standardLoop r pay mp tax ins (cnt + 1) (max 0 (b - (pay - b * r))) (m + 1) ≠ [] := by
        intro hnil
        have hlen := standardLoop_length r pay tax ins mp (cnt + 1) (max 0 (b - (pay - b * r))) (m + 1)
        rw [hnil] at hlen
        simp at hlen
      rcases Option.isSome_iff_exists.mp (List.getLast?_isSome.mpr hne) with ⟨y, hy⟩
      rw [List.getLast?_cons, hy, Option.getD_some] at hrec
      rw [hbal] at hy
      have hres := ih (stepIdeal r pay b) (m + 1) ?_ y hy
      · rw [← Option.some_inj.mp hrec, hres, ← Function.iterate_succ_apply]
      · intro k hk
        rw [← Function.iterate_succ_apply]
        exact hpos (k + 1) (Nat.succ_le_succ hk)

end StandardEval

section OneTime

variable {r pay eM tax ins : ℚ} {M : ℕ}

/-- Once the remaining one-time extra is zero, every later record carries the
plain monthly extra. -/
theorem scheduleLoop_extra_of_zero : ∀ (fuel : ℕ) (b : ℚ) (m : ℕ),
    ∀ rec ∈ scheduleLoop r pay eM tax ins M fuel b 0 m, rec.extra = eM := by
  intro fuel
  induction fuel with
  | zero => intro b m; simp [scheduleLoop]
  | succ fuel ih =>
    intro b m rec hrec
    rw [scheduleLoop] at hrec
    split at hrec
    · have hc : ¬ ((0:ℚ) < 0 ∧ m + 1 = M) := fun h => lt_irrefl 0 h.1
      simp only [if_neg hc] at hrec
      rcases List.mem_cons.mp hrec with h | h
      · subst h; rfl
      · exact ih _ _ rec h
    · simp at hrec

theorem scheduleLoop_countP_of_zero {E : ℚ} (hE : 0 < E) (fuel : ℕ) (b : ℚ) (m : ℕ) :
    (scheduleLoop r pay eM tax ins M fuel b 0 m).countP
      (fun rec => decide (rec.extra = eM + E)) = 0 := by
  rw [List.countP_eq_zero]
  intro rec hrec
  rw [scheduleLoop_extra_of_zero fuel b m rec hrec]
  simp only [decide_eq_true_eq]
  intro h
  nlinarith [h]

/-- Before the one-time month is reached, a record's extra is
`extraMonthly + oneTime` exactly when its month is the one-time month. -/
theorem scheduleLoop_extra_pre {E : ℚ} (hE : 0 < E) : ∀ (fuel : ℕ) (b : ℚ) (m : ℕ), m < M →
    ∀ rec ∈ scheduleLoop r pay eM tax ins M fuel b E m,
      (rec.month = M → rec.extra = eM + E) ∧ (rec.month ≠ M → rec.extra = eM) := by
  intro fuel
  induction fuel with
  | zero => intro b m hm; simp [scheduleLoop]
  | succ fuel ih =>
    intro b m hm rec hrec
    rw [scheduleLoop] at hrec
    split at hrec
    · by_cases hMm : m + 1 = M
      · have hc : 0 < E ∧ m + 1 = M := ⟨hE, hMm⟩
        simp only [if_pos hc] at hrec
        rcases List.mem_cons.mp hrec with h | h
        · subst h
          refine ⟨fun _ => rfl, fun hne => absurd hMm hne⟩
        · have hmonth := scheduleLoop_month_gt r pay eM tax ins M fuel _ _ _ rec h
          have hextra := scheduleLoop_extra_of_zero fuel _ _ rec h
          rw [hMm] at hmonth
          exact ⟨fun hM => absurd hM.symm (ne_of_lt hmonth), fun _ => hextra⟩
      · have hc : ¬ (0 < E ∧ m + 1 = M) := fun h => hMm h.2
        simp only [if_neg hc] at hrec
        rcases List.mem_cons.mp hrec with h | h
        · subst h
          exact ⟨fun hM => absurd hM hMm, fun _ => rfl⟩
        · exact ih _ _ (lt_of_le_of_ne (Nat.succ_le_of_lt hm) hMm) rec h
    · simp at hrec

/-- The one-time extra is recorded exactly once if the schedule reaches its
month, and never otherwise. -/
theorem scheduleLoop_countP_pre {E : ℚ} (hE : 0 < E) : ∀ (fuel : ℕ) (b : ℚ) (m : ℕ), m < M →
    (scheduleLoop r pay eM tax ins M fuel b E m).countP
        (fun rec => decide (rec.extra = eM + E))
      = if M ≤ m + (scheduleLoop r pay eM tax ins M fuel b E m).length then 1 else 0 := by
  intro fuel
  induction fuel with
  | zero =>
    intro b m hm
    simp only [scheduleLoop, List.countP_nil, List.length_nil, Nat.add_zero]
    rw [if_neg (Nat.not_le_of_lt hm)]
  | succ fuel ih =>
    intro b m hm
    rw [scheduleLoop]
    split
    · by_cases hMm : m + 1 = M
      · have hc : 0 < E ∧ m + 1 = M := ⟨hE, hMm⟩
        simp only [if_pos hc]
        rw [List.countP_cons]
        simp only [scheduleLoop_countP_of_zero hE, List.length_cons]
        have hcond : M ≤ m + ((scheduleLoop r pay eM tax ins M fuel
            (max 0 (b - (pay - b * r + (eM + E)))) 0 (m + 1)).length + 1) := by omega
        rw [if_pos hcond]
        simp
      · have hc : ¬ (0 < E ∧ m + 1 = M) := fun h => hMm h.2
        simp only [if_neg hc]
        rw [List.countP_cons]
        have hne : ¬ (eM = eM + E) := by intro h; nlinarith [h]
        simp only [List.length_cons]
        rw [ih _ _ (lt_of_le_of_ne (Nat.succ_le_of_lt hm) hMm)]
        have hrec : (decide (eM = eM + E)) = false := decide_eq_false hne
        simp only [hrec, Bool.false_eq_true, if_false, Nat.add_zero, Nat.succ_eq_add_one]
        split_ifs with h1 h2 h2
        · rfl
        · omega
        · omega
        · rfl
    · simp only [List.countP_nil, List.length_nil, Nat.add_zero]
      rw [if_neg (Nat.not_le_of_lt hm)]

end OneTime

section Frame

variable (r pay eM : ℚ) (M : ℕ)

/-- Property tax and insurance do not feed back into the amortization: two
extras loops differing only in the monthly tax/insurance produce schedules
with identical month, principal, interest, extra and balance columns. -/
theorem scheduleLoop_stripTI (tax₁ ins₁ tax₂ ins₂ : ℚ) : ∀ (fuel : ℕ) (b ot : ℚ) (m : ℕ),
    (scheduleLoop r pay eM tax₁ ins₁ M fuel b ot m).map stripTI
      = (scheduleLoop r pay eM tax₂ ins₂ M fuel b ot m).map stripTI := by
  intro fuel
  induction fuel with
  | zero => intro b ot m; rfl
  | succ fuel ih =>
    intro b ot m
    rw [scheduleLoop, scheduleLoop]
    by_cases hb : 0 < b
    · rw [if_pos hb, if_pos hb]
      simp only [List.map_cons]
      rw [ih]
      rfl
    · rw [if_neg hb, if_neg hb]

theorem standardLoop_stripTI (mp₁ mp₂ tax₁ ins₁ tax₂ ins₂ : ℚ) :
    ∀ (cnt : ℕ) (b : ℚ) (m : ℕ),
    (standardLoop r pay mp₁ tax₁ ins₁ cnt b m).map stripTI
      = (standardLoop r pay mp₂ tax₂ ins₂ cnt b m).map stripTI := by
  intro cnt
  induction cnt with
  | zero => intro b m; rfl
  | succ cnt ih =>
    intro b m
    rw [standardLoop, standardLoop]
    simp only [List.map_cons]
    rw [ih]
    rfl

end Frame

section Dichotomy

variable (r pay eM tax ins : ℚ) (M : ℕ)

/-- One unfolding of the extras loop when the guard holds, with the
let-bindings of the body expanded. -/
theorem scheduleLoop_cons (fuel : ℕ) (b ot : ℚ) (m : ℕ) (hb : 0 < b) :
    scheduleLoop r pay eM tax ins M (fuel + 1) b ot m =
      { month := m + 1
        totalPayment := pay + tax + ins + (if 0 < ot ∧ m + 1 = M then eM + ot else eM)
        principalPaid := pay - b * r + (if 0 < ot ∧ m + 1 = M then eM + ot else eM)
        interest := b * r
        tax := tax
        insurance := ins
        extra := if 0 < ot ∧ m + 1 = M then eM + ot else eM
        balance := max 0 (b - (pay - b * r + (if 0 < ot ∧ m + 1 = M then eM + ot else eM))) } ::
      scheduleLoop r pay eM tax ins M fuel
        (max 0 (b - (pay - b * r + (if 0 < ot ∧ m + 1 = M then eM + ot else eM))))
        (if 0 < ot ∧ m + 1 = M then (0 : ℚ) else ot) (m + 1) := by
  rw [scheduleLoop, if_pos hb]

/-- The extras loop ends in exactly one of three ways: it never starts (the
balance was already non-positive), it ends with a record whose clamped balance
is exactly zero (complete payoff), or it is cut by the fuel bound with the
full `fuel` records emitted.  There is no error channel. -/
theorem scheduleLoop_exit : ∀ (fuel : ℕ) (b ot : ℚ) (m : ℕ),
    (scheduleLoop r pay eM tax ins M fuel b ot m).length = fuel
    ∨ scheduleLoop r pay eM tax ins M fuel b ot m = []
    ∨ (∃ rec, (scheduleLoop r pay eM tax ins M fuel b ot m).getLast? = some rec
        ∧ rec.balance = 0) := by
  intro fuel
  induction fuel with
  | zero => intro b ot m; left; rfl
  | succ fuel ih =>
    intro b ot m
    by_cases hb : 0 < b
    · rw [scheduleLoop_cons r pay eM tax ins M fuel b ot m hb]
      set e := if 0 < ot ∧ m + 1 = M then eM + ot else eM with he
      set ot' := if 0 < ot ∧ m + 1 = M then (0 : ℚ) else ot with hot
      set b' := max 0 (b - (pay - b * r + e)) with hbdef
      rcases ih b' ot' (m + 1) with hlen | hnil | ⟨rec, hlast, hbal⟩
      · left
        simp only [List.length_cons, hlen]
      · cases fuel with
        | zero =>
          left
          rw [hnil]
          rfl
        | succ fuel' =>
          right; right
          rw [hnil]
          refine ⟨_, rfl, ?_⟩
          show b' = 0
          rcases le_or_lt (b - (pay - b * r + e)) 0 with hle | hgt
          · rw [hbdef]
            exact max_eq_left hle
          · have hbpos : 0 < b' := by
              rw [hbdef]
              exact lt_of_lt_of_le hgt (le_max_right _ _)
            exact (scheduleLoop_ne_nil r pay eM tax ins M fuel' _ _ _ hbpos hnil).elim
      · right; right
        refine ⟨rec, ?_, hbal⟩
        rw [List.getLast?_cons, hlast, Option.getD_some]
    · right; left
      exact scheduleLoop_nil_of_nonpos r pay eM tax ins M _ b ot m hb

end Dichotomy

section CalcUnfold

/-- `mortgageCalc` in the extras branch, with every field written out. -/
theorem mortgageCalc_eq_extras (la dp ir : ℚ) (ty : ℕ) (tax ins eM ot : ℚ) (M : ℕ)
    (h : 0 < eM ∨ 0 < ot) :
    mortgageCalc la dp ir ty tax ins eM ot M =
      { principal := la - la * (dp / 100)
        monthly_rate := ir / 100 / 12
        num_payments := ty * 12
        monthly_pi := monthly_pi (la - la * (dp / 100)) (ir / 100 / 12) (ty * 12)
        monthly_payment :=
          monthly_pi (la - la * (dp / 100)) (ir / 100 / 12) (ty * 12) + tax / 12 + ins / 12
        total_paid_standard :=
          (monthly_pi (la - la * (dp / 100)) (ir / 100 / 12) (ty * 12) + tax / 12 + ins / 12)
            * ((ty * 12 : ℕ) : ℚ)
        total_interest_standard :=
          monthly_pi (la - la * (dp / 100)) (ir / 100 / 12) (ty * 12) * ((ty * 12 : ℕ) : ℚ)
            - (la - la * (dp / 100))
        extrasSchedule := some (extrasScheduleCalc la dp ir ty tax ins eM ot M)
        actual_payments := some (extrasScheduleCalc la dp ir ty tax ins eM ot M).length
        total_paid_extra :=
          ((extrasScheduleCalc la dp ir ty tax ins eM ot M).map PaymentRecord.totalPayment).sum
        total_interest_extra :=
          ((extrasScheduleCalc la dp ir ty tax ins eM ot M).map PaymentRecord.interest).sum
        years_saved :=
          (((ty * 12 : ℕ) : ℚ) - ((extrasScheduleCalc la dp ir ty tax ins eM ot M).length : ℚ))
            / 12 } := by
  rw [mortgageCalc, extrasScheduleCalc]
  rw [if_pos h]

/-- `mortgageCalc` in the no-extras branch, with every field written out. -/
theorem mortgageCalc_eq_standard (la dp ir : ℚ) (ty : ℕ) (tax ins eM ot : ℚ) (M : ℕ)
    (h : ¬ (0 < eM ∨ 0 < ot)) :
    mortgageCalc la dp ir ty tax ins eM ot M =
      { principal := la - la * (dp / 100)
        monthly_rate := ir / 100 / 12
        num_payments := ty * 12
        monthly_pi := monthly_pi (la - la * (dp / 100)) (ir / 100 / 12) (ty * 12)
        monthly_payment :=
          monthly_pi (la - la * (dp / 100)) (ir / 100 / 12) (ty * 12) + tax / 12 + ins / 12
        total_paid_standard :=
          (monthly_pi (la - la * (dp / 100)) (ir / 100 / 12) (ty * 12) + tax / 12 + ins / 12)
            * ((ty * 12 : ℕ) : ℚ)
        total_interest_standard :=
          monthly_pi (la - la * (dp / 100)) (ir / 100 / 12) (ty * 12) * ((ty * 12 : ℕ) : ℚ)
            - (la - la * (dp / 100))
        extrasSchedule := none
        actual_payments := none
        total_paid_extra :=
          (monthly_pi (la - la * (dp / 100)) (ir / 100 / 12) (ty * 12) + tax / 12 + ins / 12)
            * ((ty * 12 : ℕ) : ℚ)
        total_interest_extra :=
          monthly_pi (la - la * (dp / 100)) (ir / 100 / 12) (ty * 12) * ((ty * 12 : ℕ) : ℚ)
            - (la - la * (dp / 100))
        years_saved := 0 } := by
  rw [mortgageCalc]
  rw [if_neg h]

/-- `standardScheduleCalc` unfolded to its loop. -/
theorem standardScheduleCalc_eq (la dp ir : ℚ) (ty : ℕ) (tax ins : ℚ) :
    standardScheduleCalc la dp ir ty tax ins =
      standardLoop (ir / 100 / 12)
        (monthly_pi (la - la * (dp / 100)) (ir / 100 / 12) (ty * 12))
        (monthly_pi (la - la * (dp / 100)) (ir / 100 / 12) (ty * 12) + tax / 12 + ins / 12)
        (tax / 12) (ins / 12) (ty * 12) (la - la * (dp / 100)) 0 := by
  rw [standardScheduleCalc]

end CalcUnfold

section Claims

set_option maxRecDepth 20000 in
/-- Claim C1, counterexample.  In the run homePrice = 1000, 0% down,
rate 12%, term 15 years, extraMonthly = 100, the first schedule record does
NOT satisfy `balance = max 0 (principal - principalPaid - extraPaid)`: the
recorded Principal already contains the Extra (source line 81), so
subtracting the recorded Extra a second time, as the claim demands,
does not reproduce the emitted Balance column. -/
theorem C1_counterexample :
    ((mortgageCalc 1000 0 12 15 0 0 100 0 1).extrasSchedule.getD []) ≠ []
    ∧ ((mortgageCalc 1000 0 12 15 0 0 100 0 1).extrasSchedule.getD []).headI.balance
        ≠ max 0 ((mortgageCalc 1000 0 12 15 0 0 100 0 1).principal
            - ((mortgageCalc 1000 0 12 15 0 0 100 0 1).extrasSchedule.getD []).headI.principalPaid
            - ((mortgageCalc 1000 0 12 15 0 0 100 0 1).extrasSchedule.getD []).headI.extra) := by
  decide

/-- Claim C1, amended.  For every schedule produced with extras, each record
satisfies `balance_t = max 0 (balance_(t-1) - principalPaid_t)` with
`balance_0 = principal`, where the emitted Principal field itself equals
`basePayment - interest_t + extraPaid_t`: the recorded Extra is accounted for
inside the recorded Principal (counted once there), not subtracted again
alongside it. -/
theorem C1_amended_balance_recurrence (la dp ir : ℚ) (ty : ℕ) (tax ins eM ot : ℚ) (M : ℕ) :
    balChain (mortgageCalc la dp ir ty tax ins eM ot M).principal
      ((mortgageCalc la dp ir ty tax ins eM ot M).extrasSchedule.getD [])
    ∧ ∀ rec ∈ (mortgageCalc la dp ir ty tax ins eM ot M).extrasSchedule.getD [],
        rec.principalPaid
          = (mortgageCalc la dp ir ty tax ins eM ot M).monthly_pi - rec.interest + rec.extra := by
  by_cases h : 0 < eM ∨ 0 < ot
  · rw [mortgageCalc_eq_extras la dp ir ty tax ins eM ot M h]
    dsimp only
    constructor
    · exact scheduleLoop_balChain _ _ _ _ _ _ _ _ _ _
    · exact scheduleLoop_principalPaid _ _ _ _ _ _ _ _ _ _
  · rw [mortgageCalc_eq_standard la dp ir ty tax ins eM ot M h]
    dsimp only
    exact ⟨trivial, by simp⟩

/-- Claim C2, counterexample.  A non-amortizing configuration of the
simulation loop (base payment 0, a single one-time extra of 1 at month 5,
principal 10, zero rate, safety limit 24 = 2 x 12 nominal payments) runs to
the safety bound and RETURNS the truncated 24-record schedule whose final
balance is 9 > 0.  No error of any kind is signalled: the loop has no error
channel, contradicting the claim that a distinct SafetyLimitExceeded error is
raised and no truncated schedule is returned. -/
theorem C2_counterexample :
    (scheduleLoop 0 0 0 0 0 5 24 10 1 0).length = 24
    ∧ (scheduleLoop 0 0 0 0 0 5 24 10 1 0).getLast?.map PaymentRecord.balance = some 9 := by
  decide

/-- Claim C2, amended.  The code never signals a SafetyLimitExceeded error:
when the simulation hits its safety bound without reaching zero balance, the
loop simply stops and the truncated schedule of exactly `num_payments * 2`
records is returned, with its aggregates computed from it exactly like a
complete result.  Formally, every run of `mortgageCalcRun` that returns and
carries an extras schedule returns that schedule as-is — aggregates taken
from it — and the schedule either ends with a record of balance exactly zero
(complete payoff) or was cut at exactly the safety bound; nothing in the
result distinguishes the two.  (Runs whose extras schedule would be empty
never return at all: they die in a KeyError at line 102; zero-term runs die
at line 51/53.) -/
theorem C2_amended_no_safety_error (la dp ir : ℚ) (ty : ℕ) (tax ins eM ot : ℚ) (M : ℕ) :
    mortgageCalcRun la dp ir ty tax ins eM ot M = none
    ∨ (∃ res, mortgageCalcRun la dp ir ty tax ins eM ot M = some res
        ∧ res.extrasSchedule = none)
    ∨ (∃ res s, mortgageCalcRun la dp ir ty tax ins eM ot M = some res
        ∧ res.extrasSchedule = some s
        ∧ res.actual_payments = some s.length
        ∧ res.total_paid_extra = (s.map PaymentRecord.totalPayment).sum
        ∧ res.total_interest_extra = (s.map PaymentRecord.interest).sum
        ∧ ((∃ rec, s.getLast? = some rec ∧ rec.balance = 0)
            ∨ s.length = res.num_payments * 2)) := by
  rw [mortgageCalcRun]
  by_cases hty : ty * 12 = 0
  · left
    rw [if_pos hty]
  · rw [if_neg hty]
    by_cases hcrash : (0 < eM ∨ 0 < ot)
        ∧ extrasScheduleCalc la dp ir ty tax ins eM ot M = []
    · left
      rw [if_pos hcrash]
    · rw [if_neg hcrash]
      by_cases h : 0 < eM ∨ 0 < ot
      · right; right
        refine ⟨mortgageCalc la dp ir ty tax ins eM ot M,
          extrasScheduleCalc la dp ir ty tax ins eM ot M, rfl, ?_, ?_, ?_, ?_, ?_⟩
        · rw [mortgageCalc_eq_extras la dp ir ty tax ins eM ot M h]
        · rw [mortgageCalc_eq_extras la dp ir ty tax ins eM ot M h]
        · rw [mortgageCalc_eq_extras la dp ir ty tax ins eM ot M h]
        · rw [mortgageCalc_eq_extras la dp ir ty tax ins eM ot M h]
        · have hne : ¬ extrasScheduleCalc la dp ir ty tax ins eM ot M = [] :=
            fun hnil => hcrash ⟨h, hnil⟩
          rw [mortgageCalc_eq_extras la dp ir ty tax ins eM ot M h]
          rw [extrasScheduleCalc] at hne ⊢
          rcases scheduleLoop_exit (ir / 100 / 12)
              (monthly_pi (la - la * (dp / 100)) (ir / 100 / 12) (ty * 12)) eM
              (tax / 12) (ins / 12) M (ty * 12 * 2)
              (la - la * (dp / 100)) ot 0 with hlen | hnil | hlast
          · right
            exact hlen
          · exact (hne hnil).elim
          · left
            exact hlast
      · right; left
        refine ⟨mortgageCalc la dp ir ty tax ins eM ot M, rfl, ?_⟩
        rw [mortgageCalc_eq_standard la dp ir ty tax ins eM ot M h]

set_option maxRecDepth 20000 in
/-- Claim C3, counterexample.  With a non-zero property tax (homePrice 1200,
0% down, 12% rate, 15-year term, annual tax 1200), the code's standard totals
do NOT satisfy `totalInterest = totalPaid - principal`: `total_paid_standard`
is computed from the PITI payment (line 58) while `total_interest_standard`
uses only the base P&I payment (line 59), so they differ by the tax total. -/
theorem C3_counterexample :
    (mortgageCalc 1200 0 12 15 1200 0 0 0 1).total_interest_standard
      ≠ (mortgageCalc 1200 0 12 15 1200 0 0 0 1).total_paid_standard
        - (mortgageCalc 1200 0 12 15 1200 0 0 0 1).principal := by
  decide

/-- Claim C3, amended.  For every input, `totalPaid = monthlyPayment *
numPayments` (with the PITI monthly payment) and `totalInterest =
monthlyPI * numPayments - principal` (with the base P&I payment only);
equivalently `totalInterest = totalPaid - principal - (monthlyTax +
monthlyInsurance) * numPayments`, so the claimed identity holds only when tax
and insurance are both zero. -/
theorem C3_amended_standard_totals (la dp ir : ℚ) (ty : ℕ) (tax ins eM ot : ℚ) (M : ℕ) :
    (mortgageCalc la dp ir ty tax ins eM ot M).total_paid_standard
        = (mortgageCalc la dp ir ty tax ins eM ot M).monthly_payment
          * ((mortgageCalc la dp ir ty tax ins eM ot M).num_payments : ℚ)
    ∧ (mortgageCalc la dp ir ty tax ins eM ot M).total_interest_standard
        = (mortgageCalc la dp ir ty tax ins eM ot M).monthly_pi
          * ((mortgageCalc la dp ir ty tax ins eM ot M).num_payments : ℚ)
          - (mortgageCalc la dp ir ty tax ins eM ot M).principal
    ∧ (mortgageCalc la dp ir ty tax ins eM ot M).total_interest_standard
        = (mortgageCalc la dp ir ty tax ins eM ot M).total_paid_standard
          - (mortgageCalc la dp ir ty tax ins eM ot M).principal
          - (tax / 12 + ins / 12) * ((mortgageCalc la dp ir ty tax ins eM ot M).num_payments : ℚ) := by
  by_cases h : 0 < eM ∨ 0 < ot
  · rw [mortgageCalc_eq_extras la dp ir ty tax ins eM ot M h]
    dsimp only
    refine ⟨rfl, rfl, by ring⟩
  · rw [mortgageCalc_eq_standard la dp ir ty tax ins eM ot M h]
    dsimp only
    refine ⟨rfl, rfl, by ring⟩

set_option maxRecDepth 20000 in
/-- Claim C4, counterexample.  In the run homePrice = 1000, 0% down, 12%
rate, 15-year term, extraMonthly = 1000, extraOneTime = 500 at month 12, the
loan pays off in month 1, before month 12 is reached, so NO record carries
`extra = extraMonthly + extraOneTime`, refuting the claim that exactly one
record does in every run with `extraOneTime > 0`. -/
theorem C4_counterexample :
    (mortgageCalc 1000 0 12 15 0 0 1000 500 12).extrasSchedule ≠ none
    ∧ ((mortgageCalc 1000 0 12 15 0 0 1000 500 12).extrasSchedule.getD []).countP
        (fun rec => decide (rec.extra = 1000 + 500)) = 0 := by
  decide

/-- Claim C4, amended.  For every run with `extraOneTime > 0` at month
`m >= 1`: exactly one record has `extra = extraMonthly + extraOneTime` when
the schedule reaches month m, and none otherwise (payoff before month m means
the one-time payment is never applied); every record of a month other than m
carries `extra = extraMonthly`. -/
theorem C4_amended_one_time (la dp ir : ℚ) (ty : ℕ) (tax ins eM E : ℚ) (M : ℕ)
    (hE : 0 < E) (hM : 1 ≤ M) :
    ∃ s, (mortgageCalc la dp ir ty tax ins eM E M).extrasSchedule = some s
      ∧ s.countP (fun rec => decide (rec.extra = eM + E))
          = (if M ≤ s.length then 1 else 0)
      ∧ ∀ rec ∈ s, rec.month ≠ M → rec.extra = eM := by
  rw [mortgageCalc_eq_extras la dp ir ty tax ins eM E M (Or.inr hE)]
  refine ⟨extrasScheduleCalc la dp ir ty tax ins eM E M, rfl, ?_, ?_⟩
  · have hcount := @scheduleLoop_countP_pre (ir / 100 / 12)
      (monthly_pi (la - la * (dp / 100)) (ir / 100 / 12) (ty * 12))
      eM (tax / 12) (ins / 12) M E hE
      (ty * 12 * 2) (la - la * (dp / 100)) 0 (Nat.lt_of_lt_of_le Nat.zero_lt_one hM)
    rw [Nat.zero_add] at hcount
    exact hcount
  · intro rec hrec hne
    have hpre := @scheduleLoop_extra_pre (ir / 100 / 12)
      (monthly_pi (la - la * (dp / 100)) (ir / 100 / 12) (ty * 12))
      eM (tax / 12) (ins / 12) M E hE
      (ty * 12 * 2) (la - la * (dp / 100)) 0 (Nat.lt_of_lt_of_le Nat.zero_lt_one hM) rec hrec
    exact hpre.2 hne

/-- Witness for claim C4: the amended statement instantiated at homePrice =
1000, 0% down, 12% rate, 15-year term, extraMonthly = 100, extraOneTime = 50
at month 3, discharging both hypotheses. -/
theorem C4_witness :
    ∃ s, (mortgageCalc 1000 0 12 15 0 0 100 50 3).extrasSchedule = some s
      ∧ s.countP (fun rec => decide (rec.extra = 100 + 50))
          = (if 3 ≤ s.length then 1 else 0)
      ∧ ∀ rec ∈ s, rec.month ≠ 3 → rec.extra = 100 :=
  C4_amended_one_time 1000 0 12 15 0 0 100 50 3 (by norm_num) (by norm_num)

/-- Claim C5, counterexample.  The input rate -12 is far outside the declared
domain [0,100], yet the engine computes an ordinary result instead of failing
fast: the calculation section (source lines 46-59) contains no validation of
any input, so the negative monthly rate silently falls into the zero-rate
straight-line branch and `monthly_pi` comes out as 320000 / 360 = 8000 / 9.
(All range enforcement in the source lives in the UI widgets, not in the
engine, so nothing fails and no field is ever named in an error.) -/
theorem C5_counterexample :
    (mortgageCalc 400000 20 (-12) 30 0 0 0 0 1).monthly_pi = 8000 / 9
    ∧ (mortgageCalc 400000 20 (-12) 30 0 0 0 0 1).num_payments = 360 := by
  decide

/-- Claim C5, amended.  The engine contains no input validation and never
raises a descriptive error naming a field: an annual rate outside the
declared domain is not rejected — any non-positive rate is silently routed to
the straight-line branch, and (with a non-zero term and no extras, so that no
unrelated exception intervenes) the run completes with an ordinary full
result whose base payment is `principal / numPayments`.  Out-of-domain inputs
can still abort with low-level exceptions — a zero term divides by zero at
line 51/53, an empty extras schedule hits a KeyError at line 102, both
modelled in `mortgageCalcRun` — but those are accidental crashes, not
validation errors identifying the offending field. -/
theorem C5_amended_no_validation (la dp ir : ℚ) (ty : ℕ) (tax ins : ℚ)
    (hir : ir ≤ 0) (hty : ty ≠ 0) :
    ∃ res, mortgageCalcRun la dp ir ty tax ins 0 0 1 = some res
      ∧ res.monthly_pi = res.principal / ((res.num_payments : ℕ) : ℚ) := by
  have h2 : ir / 100 / 12 = ir * (1 / 1200) := by ring
  have h1 : ir / 100 / 12 ≤ 0 := by
    rw [h2]
    linarith
  have hr : ¬ (0 < ir / 100 / 12) := not_lt.mpr h1
  have hnem : ¬ (0 < (0:ℚ) ∨ 0 < (0:ℚ)) := by norm_num
  refine ⟨mortgageCalc la dp ir ty tax ins 0 0 1, ?_, ?_⟩
  · rw [mortgageCalcRun,
      if_neg (Nat.mul_ne_zero hty (by norm_num) : ty * 12 ≠ 0),
      if_neg (fun hc => hnem hc.1)]
  · rw [mortgageCalc_eq_standard la dp ir ty tax ins 0 0 1 hnem]
    dsimp only
    rw [monthly_pi, if_neg hr]

/-- Witness for claim C5: the amended statement instantiated at an annual
rate of -6 (outside the domain), homePrice 100, term 10 years, discharging
both hypotheses. -/
theorem C5_witness :
    ∃ res, mortgageCalcRun 100 0 (-6) 10 0 0 0 0 1 = some res
      ∧ res.monthly_pi = res.principal / ((res.num_payments : ℕ) : ℚ) :=
  C5_amended_no_validation 100 0 (-6) 10 0 0 (by norm_num) (by norm_num)

/-- Claim C6.  For every run with inputs in the declared domain (non-negative
amounts, down payment in [0,100], non-negative rate, non-zero term,
non-negative extras), the Balance column is non-increasing across consecutive
records, in both the extras schedule and the standard schedule. -/
theorem C6_balance_monotone (la dp ir : ℚ) (ty : ℕ) (tax ins eM ot : ℚ) (M : ℕ)
    (hla : 0 ≤ la) (hdp0 : 0 ≤ dp) (hdp : dp ≤ 100) (hir : 0 ≤ ir) (hty : ty ≠ 0)
    (heM : 0 ≤ eM) (hot : 0 ≤ ot) :
    List.Chain' (fun a b => b.balance ≤ a.balance)
      ((mortgageCalc la dp ir ty tax ins eM ot M).extrasSchedule.getD [])
    ∧ List.Chain' (fun a b => b.balance ≤ a.balance)
      (standardScheduleCalc la dp ir ty tax ins) := by
  have hP : 0 ≤ la - la * (dp / 100) := by nlinarith [mul_nonneg hla (sub_nonneg.mpr hdp)]
  have hr : 0 ≤ ir / 100 / 12 := by positivity
  have hn : ty * 12 ≠ 0 := Nat.mul_ne_zero hty (by norm_num)
  have hge := monthly_pi_ge (ty * 12) hP hr hn
  constructor
  · by_cases h : 0 < eM ∨ 0 < ot
    · rw [mortgageCalc_eq_extras la dp ir ty tax ins eM ot M h]
      exact balLE_chain _ _
        (scheduleLoop_balLE hr heM (ty * 12 * 2) (la - la * (dp / 100)) ot 0 hP hot hge)
    · rw [mortgageCalc_eq_standard la dp ir ty tax ins eM ot M h]
      exact List.chain'_nil
  · rw [standardScheduleCalc_eq]
    exact balLE_chain _ _
      (standardLoop_balLE hr _ (ty * 12) (la - la * (dp / 100)) 0 hP hge)

/-- Witness for claim C6: the statement instantiated at homePrice 400000, 20%
down, 6.75% rate, 30-year term, tax 4800, insurance 1200, extraMonthly 200,
extraOneTime 1000 at month 12, discharging every hypothesis. -/
theorem C6_witness :
    List.Chain' (fun a b => b.balance ≤ a.balance)
      ((mortgageCalc 400000 20 (27/4) 30 4800 1200 200 1000 12).extrasSchedule.getD [])
    ∧ List.Chain' (fun a b => b.balance ≤ a.balance)
      (standardScheduleCalc 400000 20 (27/4) 30 4800 1200) :=
  C6_balance_monotone 400000 20 (27/4) 30 4800 1200 200 1000 12 (by norm_num)
    (by norm_num) (by norm_num) (by norm_num) (by norm_num) (by norm_num) (by norm_num)

/-- Claim C7.  For every run with inputs in the declared domain, the extras
schedule never takes more payments than the standard one: whenever
`actual_payments = some k`, both `k <= num_payments` and `k` is at most the
standard schedule's length (which is `num_payments`), and `years_saved >= 0`
always (it is 0 when no extras are present). -/
theorem C7_accelerated_payoff (la dp ir : ℚ) (ty : ℕ) (tax ins eM ot : ℚ) (M : ℕ)
    (hla : 0 ≤ la) (hdp0 : 0 ≤ dp) (hdp : dp ≤ 100) (hir : 0 ≤ ir) (hty : ty ≠ 0)
    (heM : 0 ≤ eM) (hot : 0 ≤ ot) :
    (∀ k, (mortgageCalc la dp ir ty tax ins eM ot M).actual_payments = some k →
        k ≤ (mortgageCalc la dp ir ty tax ins eM ot M).num_payments
        ∧ k ≤ (standardScheduleCalc la dp ir ty tax ins).length)
    ∧ 0 ≤ (mortgageCalc la dp ir ty tax ins eM ot M).years_saved := by
  have hP : 0 ≤ la - la * (dp / 100) := by nlinarith [mul_nonneg hla (sub_nonneg.mpr hdp)]
  have hr : 0 ≤ ir / 100 / 12 := by positivity
  have hn : ty * 12 ≠ 0 := Nat.mul_ne_zero hty (by norm_num)
  have hpi := monthly_pi_nonneg (ty * 12) hP hr hn
  have hzero := stepIdeal_monthly_pi_iterate (la - la * (dp / 100)) (ir / 100 / 12) (ty * 12) hr hn
  have hlen : (extrasScheduleCalc la dp ir ty tax ins eM ot M).length ≤ ty * 12 :=
    scheduleLoop_length_le hr hpi heM (ty * 12) (ty * 12 * 2)
      (la - la * (dp / 100)) ot 0 hot (le_of_eq hzero)
  by_cases h : 0 < eM ∨ 0 < ot
  · rw [mortgageCalc_eq_extras la dp ir ty tax ins eM ot M h]
    dsimp only
    constructor
    · intro k hk
      rw [Option.some_inj] at hk
      subst hk
      refine ⟨hlen, ?_⟩
      rw [standardScheduleCalc_eq, standardLoop_length]
      exact hlen
    · apply div_nonneg _ (by norm_num)
      rw [sub_nonneg]
      exact_mod_cast hlen
  · rw [mortgageCalc_eq_standard la dp ir ty tax ins eM ot M h]
    dsimp only
    constructor
    · intro k hk
      exact absurd hk (by simp)
    · exact le_refl 0

/-- Witness for claim C7: the statement instantiated at homePrice 400000, 20%
down, 6.75% rate, 30-year term, extraMonthly 200, discharging every
hypothesis. -/
theorem C7_witness :
    (∀ k, (mortgageCalc 400000 20 (27/4) 30 4800 1200 200 0 12).actual_payments = some k →
        k ≤ (mortgageCalc 400000 20 (27/4) 30 4800 1200 200 0 12).num_payments
        ∧ k ≤ (standardScheduleCalc 400000 20 (27/4) 30 4800 1200).length)
    ∧ 0 ≤ (mortgageCalc 400000 20 (27/4) 30 4800 1200 200 0 12).years_saved :=
  C7_accelerated_payoff 400000 20 (27/4) 30 4800 1200 200 0 12 (by norm_num)
    (by norm_num) (by norm_num) (by norm_num) (by norm_num) (by norm_num) (by norm_num)

/-- Claim C8.  For every run with inputs in the declared domain and no
extras: the standard schedule has exactly `num_payments` records, every
record's payment is the same constant monthly payment, the final simulated
balance is exactly zero in the ideal rational arithmetic, and the simulated
total interest coincides with the closed-form standard total interest. -/
theorem C8_closed_form_agreement (la dp ir : ℚ) (ty : ℕ) (tax ins : ℚ)
    (hla : 0 ≤ la) (hdp0 : 0 ≤ dp) (hdp : dp ≤ 100) (hir : 0 ≤ ir) (hty : ty ≠ 0) :
    (standardScheduleCalc la dp ir ty tax ins).length
        = (mortgageCalc la dp ir ty tax ins 0 0 1).num_payments
    ∧ (∀ rec ∈ standardScheduleCalc la dp ir ty tax ins,
        rec.totalPayment = (mortgageCalc la dp ir ty tax ins 0 0 1).monthly_payment)
    ∧ (∀ rec, (standardScheduleCalc la dp ir ty tax ins).getLast? = some rec →
        rec.balance = 0)
    ∧ ((standardScheduleCalc la dp ir ty tax ins).map PaymentRecord.interest).sum
        = (mortgageCalc la dp ir ty tax ins 0 0 1).total_interest_standard := by
  have hnem : ¬ (0 < (0:ℚ) ∨ 0 < (0:ℚ)) := by norm_num
  have hP : 0 ≤ la - la * (dp / 100) := by nlinarith [mul_nonneg hla (sub_nonneg.mpr hdp)]
  have hr : 0 ≤ ir / 100 / 12 := by positivity
  have hn : ty * 12 ≠ 0 := Nat.mul_ne_zero hty (by norm_num)
  have hpi := monthly_pi_nonneg (ty * 12) hP hr hn
  have hzero := stepIdeal_monthly_pi_iterate (la - la * (dp / 100)) (ir / 100 / 12) (ty * 12) hr hn
  have hpos := stepIdeal_iterate_nonneg hr hpi hzero
  rw [mortgageCalc_eq_standard la dp ir ty tax ins 0 0 1 hnem, standardScheduleCalc_eq]
  dsimp only
  refine ⟨?_, ?_, ?_, ?_⟩
  · apply standardLoop_length
  · apply standardLoop_totalPayment
  · intro rec hrec
    have hbal := standardLoop_getLast_balance _ _ _ (ty * 12)
      (la - la * (dp / 100)) 0 hpos rec hrec
    rw [hbal]
    exact hzero
  · rw [standardLoop_interest_sum _ _ _ (ty * 12) (la - la * (dp / 100)) 0 hpos, hzero]
    push_cast
    ring

/-- Witness for claim C8: the statement instantiated at homePrice 400000, 20%
down, 6.75% rate, 30-year term, discharging every hypothesis. -/
theorem C8_witness :
    (standardScheduleCalc 400000 20 (27/4) 30 4800 1200).length
        = (mortgageCalc 400000 20 (27/4) 30 4800 1200 0 0 1).num_payments
    ∧ (∀ rec ∈ standardScheduleCalc 400000 20 (27/4) 30 4800 1200,
        rec.totalPayment = (mortgageCalc 400000 20 (27/4) 30 4800 1200 0 0 1).monthly_payment)
    ∧ (∀ rec, (standardScheduleCalc 400000 20 (27/4) 30 4800 1200).getLast? = some rec →
        rec.balance = 0)
    ∧ ((standardScheduleCalc 400000 20 (27/4) 30 4800 1200).map PaymentRecord.interest).sum
        = (mortgageCalc 400000 20 (27/4) 30 4800 1200 0 0 1).total_interest_standard :=
  C8_closed_form_agreement 400000 20 (27/4) 30 4800 1200 (by norm_num) (by norm_num)
    (by norm_num) (by norm_num) (by norm_num)

/-- Claim C9.  Property tax and insurance are pass-through: two runs
differing only in annual tax and insurance have identical month / principal /
interest / extra / balance columns in both schedules, the same payoff month
count, and the same total interest (standard and with extras). -/
theorem C9_tax_insurance_frame (la dp ir : ℚ) (ty : ℕ)
    (tax₁ ins₁ tax₂ ins₂ eM ot : ℚ) (M : ℕ) :
    ((mortgageCalc la dp ir ty tax₁ ins₁ eM ot M).extrasSchedule.getD []).map stripTI
        = ((mortgageCalc la dp ir ty tax₂ ins₂ eM ot M).extrasSchedule.getD []).map stripTI
    ∧ (mortgageCalc la dp ir ty tax₁ ins₁ eM ot M).actual_payments
        = (mortgageCalc la dp ir ty tax₂ ins₂ eM ot M).actual_payments
    ∧ (mortgageCalc la dp ir ty tax₁ ins₁ eM ot M).total_interest_extra
        = (mortgageCalc la dp ir ty tax₂ ins₂ eM ot M).total_interest_extra
    ∧ (mortgageCalc la dp ir ty tax₁ ins₁ eM ot M).total_interest_standard
        = (mortgageCalc la dp ir ty tax₂ ins₂ eM ot M).total_interest_standard
    ∧ (standardScheduleCalc la dp ir ty tax₁ ins₁).map stripTI
        = (standardScheduleCalc la dp ir ty tax₂ ins₂).map stripTI := by
  have hint : ∀ s : List PaymentRecord,
      s.map PaymentRecord.interest = (s.map stripTI).map (fun t => t.2.2.1) := by
    intro s
    rw [List.map_map]
    rfl
  have hstd : (standardScheduleCalc la dp ir ty tax₁ ins₁).map stripTI
      = (standardScheduleCalc la dp ir ty tax₂ ins₂).map stripTI := by
    rw [standardScheduleCalc_eq, standardScheduleCalc_eq]
    apply standardLoop_stripTI
  by_cases h : 0 < eM ∨ 0 < ot
  · have hmap : (extrasScheduleCalc la dp ir ty tax₁ ins₁ eM ot M).map stripTI
        = (extrasScheduleCalc la dp ir ty tax₂ ins₂ eM ot M).map stripTI := by
      rw [extrasScheduleCalc, extrasScheduleCalc]
      apply scheduleLoop_stripTI
    have hlen : (extrasScheduleCalc la dp ir ty tax₁ ins₁ eM ot M).length
        = (extrasScheduleCalc la dp ir ty tax₂ ins₂ eM ot M).length := by
      have hcong := congrArg List.length hmap
      simpa using hcong
    rw [mortgageCalc_eq_extras la dp ir ty tax₁ ins₁ eM ot M h,
      mortgageCalc_eq_extras la dp ir ty tax₂ ins₂ eM ot M h]
    dsimp only
    simp only [Option.getD_some]
    refine ⟨hmap, ?_, ?_, trivial, hstd⟩
    · rw [hlen]
    · rw [hint, hint, hmap]
  · rw [mortgageCalc_eq_standard la dp ir ty tax₁ ins₁ eM ot M h,
      mortgageCalc_eq_standard la dp ir ty tax₂ ins₂ eM ot M h]
    dsimp only
    exact ⟨rfl, rfl, rfl, rfl, hstd⟩

/-- Claim C10, counterexample.  At homePrice 0 (hence principal 0) with a
positive monthly extra of 100, the loop body never runs and the schedule is
empty — but the engine does NOT report `yearsSaved = numPayments / 12`: the
run raises a KeyError at source line 102 (`df_amort["Total Payment"]` on a
DataFrame with no columns) before line 104 ever computes `years_saved`, so it
returns nothing at all (`mortgageCalcRun = none`). -/
theorem C10_counterexample :
    extrasScheduleCalc 0 0 12 15 0 0 100 0 1 = []
    ∧ mortgageCalcRun 0 0 12 15 0 0 100 0 1 = none := by
  decide

/-- Claim C10, amended.  When the derived principal is zero and some extra
payment is positive, the simulation loop body never executes and the schedule
is empty; `len(df_amort) = 0` is still computed at line 101, but the run then
raises a KeyError at line 102 on the empty DataFrame's missing column, so
lines 102-104 never execute: no result is returned and `years_saved` is never
computed, let alone reported as the full nominal term. -/
theorem C10_zero_principal_crash (la dp ir : ℚ) (ty : ℕ) (tax ins eM ot : ℚ) (M : ℕ)
    (hP : la - la * (dp / 100) = 0) (hx : 0 < eM ∨ 0 < ot) :
    extrasScheduleCalc la dp ir ty tax ins eM ot M = []
    ∧ mortgageCalcRun la dp ir ty tax ins eM ot M = none := by
  have hnil : extrasScheduleCalc la dp ir ty tax ins eM ot M = [] := by
    rw [extrasScheduleCalc]
    apply scheduleLoop_nil_of_nonpos
    rw [hP]
    exact lt_irrefl 0
  refine ⟨hnil, ?_⟩
  rw [mortgageCalcRun]
  by_cases hty : ty * 12 = 0
  · rw [if_pos hty]
  · rw [if_neg hty, if_pos ⟨hx, hnil⟩]

/-- Witness for claim C10: the amended statement instantiated at homePrice
1200 with a 100% down payment (principal 0) and a positive one-time extra,
discharging both hypotheses. -/
theorem C10_witness :
    extrasScheduleCalc 1200 100 12 15 0 0 0 500 6 = []
    ∧ mortgageCalcRun 1200 100 12 15 0 0 0 500 6 = none :=
  C10_zero_principal_crash 1200 100 12 15 0 0 0 500 6 (by norm_num)
    (Or.inr (by norm_num))

end Claims
